import Mathlib

set_option maxHeartbeats 1000000
set_option maxRecDepth 4000

/-!
Shallow embedding of the jiten-parser-py analysis pipeline
(src/src/jiten), together with theorems settling the frozen claims.

Python strings are modelled as lists of characters (Str); Python sets as
Finsets; mutable state (the resolved-word cache and in-place list mutation in
the combination passes) as explicit state passing over an object store.
Functions keep the source names (snake_case) where the lexer rules allow it.
-/

namespace Jiten

/-- Python strings are modelled as lists of characters. -/
abbrev Str := List Char

/-- Coercion helper from Lean string literals to the Str model. -/
def str (s : String) : Str := s.toList

/-- Reduction-friendly decidable equality on options (the derived instance
casts through Eq.rec, which blocks kernel evaluation on quotient-valued
payloads such as Finsets). -/
instance (priority := 2000) optionDecEq {β : Type} [DecidableEq β] :
    DecidableEq (Option β) := fun a b =>
  match a, b with
  | none, none => isTrue rfl
  | none, some _ => isFalse (fun h => Option.noConfusion h)
  | some _, none => isFalse (fun h => Option.noConfusion h)
  | some x, some y => decidable_of_iff (x = y) (by simp)

/-- Primary part-of-speech tags, from src/src/jiten/part_of_speech.py
(class PartOfSpeech).  The source constructor named after a word-initial affix
is rendered PREFIX_POS here. -/
inductive PartOfSpeech where
  | UNKNOWN | NOUN | VERB | I_ADJECTIVE | ADVERB | PARTICLE | CONJUNCTION
  | AUXILIARY | ADNOMINAL | INTERJECTION | SYMBOL | PREFIX_POS | FILLER | NAME
  | PRONOUN | NA_ADJECTIVE | SUFFIX | COMMON_NOUN | SUPPLEMENTARY_SYMBOL
  | BLANK_SPACE | EXPRESSION | NOMINAL_ADJECTIVE | NUMERAL | PRENOUN_ADJECTIVAL
  | COUNTER | ADVERB_TO | NOUN_SUFFIX
deriving DecidableEq, Repr

/-- Part-of-speech sub-tags, from src/src/jiten/part_of_speech.py
(class PartOfSpeechSection). -/
inductive PartOfSpeechSection where
  | NONE | AMOUNT | ALPHABET | FULL_STOP | BLANK_SPACE | SUFFIX | PRONOUN
  | INDEPENDANT | DEPENDANT | FILLER | COMMON | SENTENCE_ENDING_PARTICLE
  | COUNTER | PARALLEL_MARKER | BINDING_PARTICLE | POTENTIAL_ADVERB
  | CASE_MARKING_PARTICLE | IRREGULAR_CONJUNCTION | CONJUNCTION_PARTICLE
  | AUXILIARY_VERB_STEM | ADJECTIVAL_STEM | COMPOUND_WORD | QUOTATION
  | NOUN_CONJUNCTION | ADVERBIAL_PARTICLE | CONJUNCTIVE_PARTICLE_CLASS
  | ADVERBIALIZATION | ADVERBIAL_PARTICLE_OR_PARALLEL_MARKER_OR_SENTENCE_ENDING_PARTICLE
  | ADNOMINAL_ADJECTIVE | PROPER_NOUN | SPECIAL | VERB_CONJUNCTION | PERSON_NAME
  | FAMILY_NAME | ORGANIZATION | NOT_ADJECTIVE_STEM | COMMA | OPENING_BRACKET
  | CLOSING_BRACKET | REGION | COUNTRY | NUMERAL | POSSIBLE_DEPENDANT
  | COMMON_NOUN | SUBSTANTIVE_ADJECTIVE | POSSIBLE_COUNTER_WORD | POSSIBLE_SURU
  | JUNTAIJOUSHI | POSSIBLE_NA_ADJECTIVE | VERB_LIKE | POSSIBLE_VERB_SURU_NOUN
  | ADJECTIVAL | NA_ADJECTIVE_LIKE | NAME | LETTER | PLACE_NAME | TARU_ADJECTIVE
deriving DecidableEq, Repr

/-- Morpheme/word unit record, from src/src/jiten/word_info.py (class WordInfo).
Field defaults mirror WordInfo.__init__. -/
structure WordInfo where
  text : Str := []
  part_of_speech : PartOfSpeech := PartOfSpeech.UNKNOWN
  part_of_speech_section1 : PartOfSpeechSection := PartOfSpeechSection.NONE
  part_of_speech_section2 : PartOfSpeechSection := PartOfSpeechSection.NONE
  part_of_speech_section3 : PartOfSpeechSection := PartOfSpeechSection.NONE
  normalized_form : Str := []
  dictionary_form : Str := []
  reading : Str := []
  is_invalid : Bool := false
deriving Repr

instance : DecidableEq WordInfo := fun a b =>
  decidable_of_iff
    (a.text = b.text ∧ a.part_of_speech = b.part_of_speech ∧
      a.part_of_speech_section1 = b.part_of_speech_section1 ∧
      a.part_of_speech_section2 = b.part_of_speech_section2 ∧
      a.part_of_speech_section3 = b.part_of_speech_section3 ∧
      a.normalized_form = b.normalized_form ∧
      a.dictionary_form = b.dictionary_form ∧
      a.reading = b.reading ∧ a.is_invalid = b.is_invalid)
    (by cases a; cases b; simp)

/-- WordInfo.has_part_of_speech_section from src/src/jiten/word_info.py. -/
def WordInfo.has_part_of_speech_section (w : WordInfo) (s : PartOfSpeechSection) : Prop :=
  w.part_of_speech_section1 = s ∨ w.part_of_speech_section2 = s ∨
    w.part_of_speech_section3 = s

instance (w : WordInfo) (s : PartOfSpeechSection) :
    Decidable (w.has_part_of_speech_section s) := by
  unfold WordInfo.has_part_of_speech_section
  infer_instance

/-! Helpers modelling Python string primitives. -/

/-- Python list/str indexing with a first-element fallback, as used when a
parallel lists of a rule have unequal lengths (element i when i is in range, else element 0). -/
def idxOrFirst {α : Type} (xs : List α) (i : Nat) (dflt : α) : α :=
  if i < xs.length then xs.getD i dflt else xs.getD 0 dflt

/-- Worker for pyReplace.  The fuel starts at the length of the subject string;
every step consumes at least one character, so the fuel never runs out on the
calls made by pyReplace (the 0 case is unreachable there). -/
def pyReplaceGo (pat rep : Str) : Nat → Str → Str
  | _, [] => []
  | 0, s => s
  | Nat.succ fuel, c :: cs =>
    if pat ≠ [] ∧ pat.isPrefixOf (c :: cs) then
      rep ++ pyReplaceGo pat rep fuel ((c :: cs).drop pat.length)
    else
      c :: pyReplaceGo pat rep fuel cs

/-- Python str.replace (replace every occurrence, left to right; an empty
pattern inserts the replacement at every position, including both ends). -/
def pyReplace (s pat rep : Str) : Str :=
  if pat = [] then rep ++ (s.map (fun c => [c] ++ rep)).flatten
  else pyReplaceGo pat rep s.length s

/-- Python substring containment (the in operator on str). -/
def pyContains (s pat : Str) : Bool :=
  (List.range (s.length + 1)).any (fun i => pat.isPrefixOf (s.drop i))

/-- Python str.find(sub, start): index of the first occurrence at or after
start, as an Option (Python returns -1 for no occurrence). -/
def pyFind (s pat : Str) (start : Nat) : Option Nat :=
  (List.range (s.length + 1)).find? (fun i =>
    decide (start ≤ i) && pat.isPrefixOf (s.drop i))

/-! Deconjugation engine, from src/src/jiten/deconjugation_form.py,
deconjugation_rule.py, deconjugation_virtual_rule.py and deconjugator.py.
The rule table itself (resources/deconjugator.json) is data loaded at start-up
and is not part of the source tree, so every definition and theorem is
parameterized by the list of rules. -/

/-- DeconjugationForm (src/src/jiten/deconjugation_form.py): equality is over
all five fields; seen_text is a Python set, modelled as a Finset. -/
structure DeconjugationForm where
  text : Str
  original_text : Str
  tags : List String
  seen_text : Finset Str
  process : List String

instance : DecidableEq DeconjugationForm := fun a b =>
  decidable_of_iff
    (a.text = b.text ∧ a.original_text = b.original_text ∧ a.tags = b.tags ∧
      a.seen_text = b.seen_text ∧ a.process = b.process)
    (by cases a; cases b; simp)

/-- DeconjugationVirtualRule (src/src/jiten/deconjugation_virtual_rule.py). -/
structure DeconjugationVirtualRule where
  dec_end : Str
  con_end : Str
  dec_tag : Option String
  con_tag : Option String
  detail : String

instance : DecidableEq DeconjugationVirtualRule := fun a b =>
  decidable_of_iff
    (a.dec_end = b.dec_end ∧ a.con_end = b.con_end ∧ a.dec_tag = b.dec_tag ∧
      a.con_tag = b.con_tag ∧ a.detail = b.detail)
    (by cases a; cases b; simp)

/-- DeconjugationRule (src/src/jiten/deconjugation_rule.py). -/
structure DeconjugationRule where
  type : String
  detail : String
  dec_end : List Str
  con_end : List Str
  context_rule : Option String := none
  dec_tag : Option (List String) := none
  con_tag : Option (List String) := none

instance : DecidableEq DeconjugationRule := fun a b =>
  decidable_of_iff
    (a.type = b.type ∧ a.detail = b.detail ∧ a.dec_end = b.dec_end ∧
      a.con_end = b.con_end ∧ a.context_rule = b.context_rule ∧
      a.dec_tag = b.dec_tag ∧ a.con_tag = b.con_tag)
    (by cases a; cases b; simp)

/-- Collection step used by the rule loops: add a hit to the collection,
keep the collection unchanged for a miss. -/
def insert_option {β : Type} [DecidableEq β] (acc : Finset β) : Option β → Finset β
  | some r => insert r acc
  | none => acc

/-- Deconjugator._cache_virtual_rules: pre-expansion of a multi-ending rule
into virtual rules (empty for rules with at most one ending, which are not
cached). -/
def cache_virtual_rules (rule : DeconjugationRule) : List DeconjugationVirtualRule :=
  if rule.dec_end.length ≤ 1 then []
  else
    (List.range rule.dec_end.length).map (fun i =>
      { dec_end := idxOrFirst rule.dec_end i []
        con_end := idxOrFirst rule.con_end i []
        dec_tag :=
          match rule.dec_tag with
          | some ts => if ts ≠ [] then some (idxOrFirst ts i "") else none
          | none => none
        con_tag :=
          match rule.con_tag with
          | some ts => if ts ≠ [] then some (idxOrFirst ts i "") else none
          | none => none
        detail := rule.detail })

/-- Deconjugator._create_initial_form. -/
def create_initial_form (text : Str) : DeconjugationForm :=
  { text := text, original_text := text, tags := [], seen_text := ∅, process := [] }

/-- Deconjugator._should_skip_form. -/
def should_skip_form (form : DeconjugationForm) : Bool :=
  decide (form.text = []) ||
  decide (form.text.length > form.original_text.length + 10) ||
  decide (form.tags.length > form.original_text.length + 6)

/-- Deconjugator._create_new_form. -/
def create_new_form (form : DeconjugationForm) (new_text : Str)
    (con_tag dec_tag : Option String) (detail : String) : DeconjugationForm :=
  let new_process := form.process ++ [detail]
  let new_tags :=
    if form.tags = [] then
      match con_tag with
      | some c => [c]
      | none => []
    else form.tags
  let new_tags :=
    match dec_tag with
    | some d => new_tags ++ [d]
    | none => new_tags
  let new_seen :=
    if form.seen_text = ∅ then insert form.text form.seen_text else form.seen_text
  let new_seen := insert new_text new_seen
  { text := new_text, original_text := form.original_text, tags := new_tags,
    seen_text := new_seen, process := new_process }

/-- Deconjugator._std_rule_deconjugate_inner. -/
def std_rule_deconjugate_inner (form : DeconjugationForm)
    (rule : DeconjugationVirtualRule) : Option DeconjugationForm :=
  if !(rule.con_end.isSuffixOf form.text) then none
  else if form.tags ≠ [] ∧ form.tags.getLast? ≠ rule.con_tag then none
  else
    let prefix_len := form.text.length - rule.con_end.length
    let new_text := form.text.take prefix_len ++ rule.dec_end
    if new_text = form.original_text then none
    else some (create_new_form form new_text rule.con_tag rule.dec_tag rule.detail)

/-- Deconjugator._std_rule_deconjugate.  Result sets are Finsets, with the
empty set standing for the None of the source. -/
def std_rule_deconjugate (form : DeconjugationForm) (rule : DeconjugationRule) :
    Finset DeconjugationForm :=
  if rule.detail = "" ∧ form.tags = [] then ∅
  else if rule.dec_end.length = 1 then
    let virtual_rule : DeconjugationVirtualRule :=
      { dec_end := rule.dec_end.getD 0 []
        con_end := rule.con_end.getD 0 []
        dec_tag :=
          match rule.dec_tag with
          | some (t :: _) => some t
          | _ => none
        con_tag :=
          match rule.con_tag with
          | some (t :: _) => some t
          | _ => none
        detail := rule.detail }
    match std_rule_deconjugate_inner form virtual_rule with
    | some hit => {hit}
    | none => ∅
  else
    (cache_virtual_rules rule).foldl (fun acc vr =>
      insert_option acc (std_rule_deconjugate_inner form vr)) ∅

/-- Deconjugator._create_substitution_form. -/
def create_substitution_form (form : DeconjugationForm) (new_text : Str)
    (detail : String) : DeconjugationForm :=
  let new_process := form.process ++ [detail]
  let new_seen :=
    if form.seen_text = ∅ then insert form.text form.seen_text else form.seen_text
  let new_seen := insert new_text new_seen
  { text := new_text, original_text := form.original_text, tags := form.tags,
    seen_text := new_seen, process := new_process }

/-- Deconjugator._substitution_inner. -/
def substitution_inner (form : DeconjugationForm) (con_end dec_end : Str)
    (detail : String) : Option DeconjugationForm :=
  if !(pyContains form.text con_end) then none
  else some (create_substitution_form form (pyReplace form.text con_end dec_end) detail)

/-- Deconjugator._substitution_deconjugate. -/
def substitution_deconjugate (form : DeconjugationForm) (rule : DeconjugationRule) :
    Finset DeconjugationForm :=
  if form.process ≠ [] ∨ form.text = [] then ∅
  else if rule.dec_end.length = 1 then
    match substitution_inner form (rule.con_end.getD 0 []) (rule.dec_end.getD 0 [])
        rule.detail with
    | some hit => {hit}
    | none => ∅
  else
    (List.range rule.dec_end.length).foldl (fun acc i =>
      insert_option acc (substitution_inner form (idxOrFirst rule.con_end i [])
        (idxOrFirst rule.dec_end i []) rule.detail)) ∅

/-- Deconjugator._rewrite_rule_deconjugate. -/
def rewrite_rule_deconjugate (form : DeconjugationForm) (rule : DeconjugationRule) :
    Finset DeconjugationForm :=
  if form.text = rule.con_end.getD 0 [] then std_rule_deconjugate form rule else ∅

/-- Deconjugator._only_final_rule_deconjugate. -/
def only_final_rule_deconjugate (form : DeconjugationForm) (rule : DeconjugationRule) :
    Finset DeconjugationForm :=
  if form.tags = [] then std_rule_deconjugate form rule else ∅

/-- Deconjugator._never_final_rule_deconjugate. -/
def never_final_rule_deconjugate (form : DeconjugationForm) (rule : DeconjugationRule) :
    Finset DeconjugationForm :=
  if form.tags ≠ [] then std_rule_deconjugate form rule else ∅

/-- Deconjugator._v1_inf_trap_check. -/
def v1_inf_trap_check (form : DeconjugationForm) : Bool :=
  decide (form.tags ≠ ["stem-ren"])

/-- Deconjugator._sa_special_check.  The source file as shipped holds the
bytes U+00E3 U+2022 where the kana さ was intended (a UTF-8 mis-decoding);
the comparison is modelled with the intended single kana. -/
def sa_special_check (form : DeconjugationForm) (rule : DeconjugationRule) : Bool :=
  if form.text = [] then false
  else
    let con_end := rule.con_end.getD 0 []
    if !(con_end.isSuffixOf form.text) then false
    else
      let prefix_len := form.text.length - con_end.length
      decide (prefix_len ≤ 0) || decide (form.text.getD (prefix_len - 1) ' ' ≠ 'さ')

/-- Deconjugator._context_rule_deconjugate. -/
def context_rule_deconjugate (form : DeconjugationForm) (rule : DeconjugationRule) :
    Finset DeconjugationForm :=
  if rule.context_rule = some "v1inftrap" ∧ v1_inf_trap_check form = false then ∅
  else if rule.context_rule = some "saspecial" ∧ sa_special_check form rule = false then ∅
  else std_rule_deconjugate form rule

/-- Deconjugator._apply_rule: dispatch on the rule type. -/
def apply_rule (form : DeconjugationForm) (rule : DeconjugationRule) :
    Finset DeconjugationForm :=
  if rule.type = "stdrule" then std_rule_deconjugate form rule
  else if rule.type = "rewriterule" then rewrite_rule_deconjugate form rule
  else if rule.type = "onlyfinalrule" then only_final_rule_deconjugate form rule
  else if rule.type = "neverfinalrule" then never_final_rule_deconjugate form rule
  else if rule.type = "contextrule" then context_rule_deconjugate form rule
  else if rule.type = "substitution" then substitution_deconjugate form rule
  else ∅

/-- Union of all rule results for one frontier form (the inner rule loop of
deconjugate). -/
def all_rule_results (rules : List DeconjugationRule) (form : DeconjugationForm) :
    Finset DeconjugationForm :=
  rules.foldl (fun acc rule => acc ∪ apply_rule form rule) ∅

/-- One round of the breadth-first loop in deconjugate: the set of forms
produced from the (non-skipped) frontier that are new with respect to both the
processed set and the frontier. -/
def round_novel (rules : List DeconjugationRule)
    (processed novel : Finset DeconjugationForm) : Finset DeconjugationForm :=
  ((novel.filter (fun f => should_skip_form f = false)).biUnion
    (fun f => all_rule_results rules f)) \ (processed ∪ novel)

/-- Initial loop state of deconjugate: empty processed set, and the initial
form as frontier (empty frontier for empty input, matching the early return). -/
def deconjugate_init (text : Str) :
    Finset DeconjugationForm × Finset DeconjugationForm :=
  (∅, if text = [] then ∅ else {create_initial_form text})

/-- One iteration of the while-novel loop of deconjugate. -/
def deconjugate_step (rules : List DeconjugationRule)
    (st : Finset DeconjugationForm × Finset DeconjugationForm) :
    Finset DeconjugationForm × Finset DeconjugationForm :=
  (st.1 ∪ st.2, round_novel rules st.1 st.2)

/-- Loop state of deconjugate after k rounds. -/
def deconjugate_state (rules : List DeconjugationRule) (text : Str) :
    Nat → Finset DeconjugationForm × Finset DeconjugationForm
  | 0 => deconjugate_init text
  | Nat.succ k => deconjugate_step rules (deconjugate_state rules text k)

/-- Deconjugator.deconjugate, observed through the loop semantics: if the
frontier is exhausted within the given number of rounds, the returned set is
the processed set at that point (the loop is a fixed point from then on). -/
def deconjugate_within (rules : List DeconjugationRule) (text : Str) (fuel : Nat) :
    Option (Finset DeconjugationForm) :=
  if (deconjugate_state rules text fuel).2 = ∅ then
    some (deconjugate_state rules text fuel).1
  else none

/-! Combination passes, from src/src/jiten/morphological_analyser.py.  The
passes needed by the claims are embedded: the verb-dependant sub-passes, the
conjunctive-particle pass (with explicit object-store semantics, since it
mutates units of its input list in place), and the honorific-separation pass. -/

/-- Python WordInfo() with no source: every field at its default. -/
def word_info_default : WordInfo := {}

/-- MorphologicalAnalyser._combine_verb_dependants: absorb a dependant-tagged
unit into a preceding verb (accumulator current_word is a copy, so this pass
builds fresh values). -/
def combine_verb_dependants (word_infos : List WordInfo) : List WordInfo :=
  if word_infos.length < 2 then word_infos
  else
    match word_infos with
    | [] => word_infos
    | first :: rest =>
      let st := rest.foldl (fun (st : List WordInfo × WordInfo) next_word =>
        if next_word.has_part_of_speech_section PartOfSpeechSection.DEPENDANT ∧
            st.2.part_of_speech = PartOfSpeech.VERB then
          (st.1, { st.2 with text := st.2.text ++ next_word.text })
        else
          (st.1 ++ [st.2], next_word)) ([], first)
      st.1 ++ [st.2]

/-- MorphologicalAnalyser._combine_verb_possible_dependants. -/
def combine_verb_possible_dependants (word_infos : List WordInfo) : List WordInfo :=
  if word_infos.length < 2 then word_infos
  else
    match word_infos with
    | [] => word_infos
    | first :: rest =>
      let st := rest.foldl (fun (st : List WordInfo × WordInfo) next_word =>
        if next_word.has_part_of_speech_section PartOfSpeechSection.POSSIBLE_DEPENDANT ∧
            st.2.part_of_speech = PartOfSpeech.VERB ∧
            next_word.dictionary_form ∈ [str "得る", str "する", str "しまう",
              str "おる", str "きる", str "こなす", str "いく", str "貰う",
              str "いる", str "ない"] then
          (st.1, { st.2 with text := st.2.text ++ next_word.text })
        else
          (st.1 ++ [st.2], next_word)) ([], first)
      st.1 ++ [st.2]

/-- Worker for the index loop of _combine_verb_dependants_suru. -/
def combine_verb_dependants_suru_go : List WordInfo → List WordInfo
  | current_word :: next_word :: rest =>
    if current_word.has_part_of_speech_section PartOfSpeechSection.POSSIBLE_SURU ∧
        next_word.dictionary_form = str "する" ∧
        next_word.text ∉ [str "する", str "しない"] then
      { current_word with
          text := current_word.text ++ next_word.text
          part_of_speech := PartOfSpeech.VERB } :: combine_verb_dependants_suru_go rest
    else
      current_word :: combine_verb_dependants_suru_go (next_word :: rest)
  | l => l

/-- MorphologicalAnalyser._combine_verb_dependants_suru. -/
def combine_verb_dependants_suru (word_infos : List WordInfo) : List WordInfo :=
  if word_infos.length < 2 then word_infos
  else combine_verb_dependants_suru_go word_infos

/-- Worker for the index loop of _combine_verb_dependants_teiru. -/
def combine_verb_dependants_teiru_go : List WordInfo → List WordInfo
  | current_word :: next1 :: next2 :: rest =>
    if current_word.part_of_speech = PartOfSpeech.VERB ∧
        next1.dictionary_form = str "て" ∧ next2.dictionary_form = str "いる" then
      { current_word with text := current_word.text ++ next1.text ++ next2.text } ::
        combine_verb_dependants_teiru_go rest
    else
      current_word :: combine_verb_dependants_teiru_go (next1 :: next2 :: rest)
  | l => l

/-- MorphologicalAnalyser._combine_verb_dependants_teiru. -/
def combine_verb_dependants_teiru (word_infos : List WordInfo) : List WordInfo :=
  if word_infos.length < 3 then word_infos
  else combine_verb_dependants_teiru_go word_infos

/-- MorphologicalAnalyser._combine_verb_dependant: the four verb-dependant
sub-passes in source order. -/
def combine_verb_dependant (word_infos : List WordInfo) : List WordInfo :=
  if word_infos.length < 2 then word_infos
  else
    combine_verb_dependants_teiru
      (combine_verb_dependants_suru
        (combine_verb_possible_dependants
          (combine_verb_dependants word_infos)))

/-- Merge condition of MorphologicalAnalyser._combine_conjunctive_particle. -/
def conj_particle_should_combine (previous_word current_word : WordInfo) : Prop :=
  current_word.has_part_of_speech_section PartOfSpeechSection.CONJUNCTION_PARTICLE ∧
  current_word.text ∈ [str "て", str "で", str "ちゃ", str "ば"] ∧
  previous_word.part_of_speech ∈
    [PartOfSpeech.VERB, PartOfSpeech.I_ADJECTIVE, PartOfSpeech.AUXILIARY]

instance (p c : WordInfo) : Decidable (conj_particle_should_combine p c) := by
  unfold conj_particle_should_combine
  infer_instance

/-- MorphologicalAnalyser._combine_conjunctive_particle with explicit object
identity: new_list starts as the alias [word_infos[0]] and the merge mutates
previous_word (an object of the input list) in place.  The state is the store
of the objects of the input list plus the indices aliased by new_list; the result is
(the value sequence of new_list, the post-state of the objects of the input list). -/
def combine_conjunctive_particle_heap (word_infos : List WordInfo) :
    List WordInfo × List WordInfo :=
  if word_infos.length < 2 then (word_infos, word_infos)
  else
    let st := (List.range' 1 (word_infos.length - 1)).foldl
      (fun (st : List WordInfo × List Nat) i =>
        let heap := st.1
        let idxs := st.2
        let current_word := heap.getD i word_info_default
        let prev_idx := idxs.getLastD 0
        let previous_word := heap.getD prev_idx word_info_default
        if conj_particle_should_combine previous_word current_word then
          (heap.set prev_idx
            { previous_word with text := previous_word.text ++ current_word.text },
           idxs)
        else
          (heap, idxs ++ [i]))
      (word_infos, [0])
    (st.2.map (fun i => st.1.getD i word_info_default), st.1)

/-- Value-level result of _combine_conjunctive_particle (the returned
new_list). -/
def combine_conjunctive_particle (word_infos : List WordInfo) : List WordInfo :=
  (combine_conjunctive_particle_heap word_infos).1

/-- HONORIFICS_SUFFIXES from src/src/jiten/morphological_analyser.py. -/
def HONORIFICS_SUFFIXES : List Str := [str "さん", str "ちゃん", str "くん"]

/-- Per-word split condition inside _separate_suffix_honorifics. -/
def honorific_matches (w : WordInfo) (honorific : Str) : Prop :=
  honorific.isSuffixOf w.text = true ∧ w.text.length > honorific.length ∧
  (w.has_part_of_speech_section PartOfSpeechSection.PERSON_NAME ∨
   w.has_part_of_speech_section PartOfSpeechSection.PROPER_NOUN)

instance (w : WordInfo) (h : Str) : Decidable (honorific_matches w h) := by
  unfold honorific_matches
  infer_instance

/-- Per-word body of the loop in _separate_suffix_honorifics: split off the
first matching honorific, or keep the unit unchanged. -/
def separate_one_honorific (w : WordInfo) : List WordInfo :=
  match HONORIFICS_SUFFIXES.find? (fun h => decide (honorific_matches w h)) with
  | some honorific =>
    let trimmed : WordInfo :=
      { w with
        text := w.text.take (w.text.length - honorific.length)
        dictionary_form :=
          if honorific.isSuffixOf w.dictionary_form then
            w.dictionary_form.take (w.dictionary_form.length - honorific.length)
          else w.dictionary_form }
    let sfx : WordInfo :=
      { word_info_default with
        text := honorific, reading := honorific, dictionary_form := honorific,
        part_of_speech := PartOfSpeech.SUFFIX }
    [trimmed, sfx]
  | none => [w]

/-- The new_list computed inside _separate_suffix_honorifics. -/
def separate_suffix_honorifics_split (word_infos : List WordInfo) : List WordInfo :=
  word_infos.foldl (fun acc w => acc ++ separate_one_honorific w) []

/-- MorphologicalAnalyser._separate_suffix_honorifics as shipped: the split
list new_list is computed, but the function returns word_infos (the input list,
whose elements were never mutated, since the loop mutates per-element copies). -/
def separate_suffix_honorifics (word_infos : List WordInfo) : List WordInfo :=
  if word_infos.length < 2 then word_infos
  else
    let _new_list := separate_suffix_honorifics_split word_infos
    word_infos

/-! Text preprocessing and sentence segmentation, from
MorphologicalAnalyser._preprocess_text and ._split_into_sentences. -/

/-- Single-character re.sub: replace every occurrence of the character by the
replacement string. -/
def charSub (c : Char) (rep : Str) (s : Str) : Str :=
  (s.map (fun x => if x = c then rep else [x])).flatten

/-- Character class kept by the removal regex in _preprocess_text (the regex
deletes every character outside this set). -/
def in_keep_class (c : Char) : Prop :=
  let n := c.toNat
  (0x3040 ≤ n ∧ n ≤ 0x309F) ∨ (0x30A0 ≤ n ∧ n ≤ 0x30FF) ∨
  (0x4E00 ≤ n ∧ n ≤ 0x9FAF) ∨ (0xFF21 ≤ n ∧ n ≤ 0xFF3A) ∨
  (0xFF41 ≤ n ∧ n ≤ 0xFF5A) ∨ (0xFF10 ≤ n ∧ n ≤ 0xFF19) ∨ n = 0x3005 ∨
  (0x3001 ≤ n ∧ n ≤ 0x3003) ∨ (0x3008 ≤ n ∧ n ≤ 0x3011) ∨
  (0x3014 ≤ n ∧ n ≤ 0x301F) ∨ (0xFF01 ≤ n ∧ n ≤ 0xFF0F) ∨
  (0xFF1A ≤ n ∧ n ≤ 0xFF1F) ∨ (0xFF3B ≤ n ∧ n ≤ 0xFF3F) ∨
  (0xFF5B ≤ n ∧ n ≤ 0xFF60) ∨ (0xFF62 ≤ n ∧ n ≤ 0xFF65) ∨ n = 0xFF0E ∨
  n = 0xA ∨ n = 0x2026 ∨ n = 0x3000 ∨ n = 0x2015 ∨ n = 0x2500 ∨ n = 0x28 ∨
  n = 0x29 ∨ n = 0x3002 ∨ n = 0xFF01 ∨ n = 0xFF1F ∨ n = 0x300C ∨
  n = 0x300D ∨ n = 0xFF09

instance (c : Char) : Decidable (in_keep_class c) := by
  unfold in_keep_class
  infer_instance

/-- MorphologicalAnalyser._preprocess_text, step by step in source order. -/
def preprocess_text (text : Str) : Str :=
  let text := pyReplace text (str "<") (str " ")
  let text := pyReplace text (str ">") (str " ")
  let text := text.filter (fun c => decide (in_keep_class c))
  let text := charSub '「' (str "\n「 ") text
  let text := charSub '」' (str " 」\n") text
  let text := charSub '〈' (str " \n〈 ") text
  let text := charSub '〉' (str " 〉\n") text
  let text := charSub '《' (str " \n《 ") text
  let text := charSub '》' (str " 》\n") text
  let text := charSub '“' (str " \n“ ") text
  let text := charSub '”' (str " ”\n") text
  let text := charSub '―' (str " ― ") text
  let text := charSub '。' (str " 。\n") text
  let text := charSub '！' (str " ！\n") text
  let text := charSub '？' (str " ？\n") text
  let text := pyReplace text (str "…\r") (str "。\r")
  let text := pyReplace text (str "…\n") (str "。\n")
  text

/-- SentenceInfo from src/src/jiten/sentence_info.py: sentence text plus
(word, start offset, length) triples. -/
structure SentenceInfo where
  text : Str
  words : List (WordInfo × Nat × Nat) := []
deriving Repr

instance : DecidableEq SentenceInfo := fun a b =>
  decidable_of_iff (a.text = b.text ∧ a.words = b.words)
    (by cases a; cases b; simp)

/-- Sentence-ender set of MorphologicalAnalyser. -/
def SENTENCE_ENDERS : List Char := ['。', '！', '？', '」']

/-- Character phase of _split_into_sentences: split the flattened text on
runs of sentence enders. -/
def split_sentences_chars (text : Str) : List SentenceInfo :=
  let st := text.foldl
    (fun (st : List SentenceInfo × Str × Bool) char =>
      let sentences := st.1
      let current := st.2.1 ++ [char]
      let seen_ender := st.2.2
      if char ∈ SENTENCE_ENDERS then (sentences, current, true)
      else if seen_ender then
        (sentences ++ [{ text := current.dropLast }], [char], false)
      else (sentences, current, seen_ender))
    ([], [], false)
  if st.2.1 ≠ [] then st.1 ++ [{ text := st.2.1 }] else st.1

/-- Straddle probe of _split_into_sentences: the first split point of the word
text whose head is a suffix of the remaining sentence text and whose tail is a
prefix of the next sentence. -/
def straddle_split (word_text remaining next_text : Str) : Option Nat :=
  (List.range' 1 (word_text.length - 1)).find? (fun i =>
    (word_text.take i).isSuffixOf remaining && (word_text.drop i).isPrefixOf next_text)

/-- Inner while loop of the word-assignment phase of _split_into_sentences.
The fuel starts above the sentence count; every iteration either returns or
strictly decreases the count of sentences not yet tried, so the fuel never
runs out on the calls made by assign_word (the 0 case is unreachable there). -/
def assign_word_go : Nat → List SentenceInfo → Nat → Nat → WordInfo →
    List SentenceInfo × Nat × Nat
  | 0, sentences, idx, ci, _ => (sentences, idx, ci)
  | Nat.succ fuel, sentences, idx, ci, word =>
    if idx < sentences.length then
      let sentence := sentences.getD idx { text := [] }
      match pyFind sentence.text word.text ci with
      | some word_idx =>
        (sentences.set idx
          { sentence with words := sentence.words ++ [(word, word_idx, word.text.length)] },
         idx, word_idx + word.text.length)
      | none =>
        if idx + 1 < sentences.length then
          let next_sentence := sentences.getD (idx + 1) { text := [] }
          match straddle_split word.text (sentence.text.drop ci) next_sentence.text with
          | some _ =>
            let merged := { sentence with text := sentence.text ++ next_sentence.text }
            let sentences' := (sentences.set idx merged).eraseIdx (idx + 1)
            match pyFind merged.text word.text ci with
            | some word_idx =>
              (sentences'.set idx
                { merged with
                  words := merged.words ++ [(word, word_idx, word.text.length)] },
               idx, word_idx + word.text.length)
            | none => assign_word_go fuel sentences' (idx + 1) 0 word
          | none => assign_word_go fuel sentences (idx + 1) 0 word
        else assign_word_go fuel sentences (idx + 1) 0 word
    else (sentences, idx, ci)

/-- One word of the assignment phase (the while word-not-assigned loop). -/
def assign_word (sentences : List SentenceInfo) (idx ci : Nat) (word : WordInfo) :
    List SentenceInfo × Nat × Nat :=
  assign_word_go (sentences.length + 1) sentences idx ci word

/-- Assignment phase of _split_into_sentences: assign each unit in order,
carrying the sentence cursor and character cursor across units; units with
empty text are skipped. -/
def assign_words : List SentenceInfo → Nat → Nat → List WordInfo → List SentenceInfo
  | sentences, _, _, [] => sentences
  | sentences, idx, ci, word :: rest =>
    if word.text = [] then assign_words sentences idx ci rest
    else
      match assign_word sentences idx ci word with
      | (sentences', idx', ci') => assign_words sentences' idx' ci' rest

/-- MorphologicalAnalyser._split_into_sentences. -/
def split_into_sentences (text : Str) (word_infos : List WordInfo) :
    List SentenceInfo :=
  let text := pyReplace text (str "\r") []
  let text := pyReplace text (str "\n") []
  assign_words (split_sentences_chars text) 0 0 word_infos

/-! Priority scoring, from src/src/jiten/jmdict/jmdict_word.py
(JmDictWord.get_priority_score). -/

/-- Modelled from the spec: the lexical-origin enum (word_origin.py is not in
the source tree); only the default value is needed by the claims. -/
inductive WordOrigin where
  | UNKNOWN
deriving DecidableEq, Repr

/-- Dictionary entry, from src/src/jiten/jmdict/jmdict_word.py (JmDictWord).
Fields not consulted by get_priority_score (reading types, furigana,
definitions, lookups, pitch accents) are carried only where the claims need
them; priorities is the Optional list of the source with None and [] identified,
as the source only tests its truthiness. -/
structure JmDictWord where
  word_id : Nat := 0
  readings : List Str := []
  parts_of_speech : List Str := []
  priorities : List Str := []
  origin : WordOrigin := WordOrigin.UNKNOWN

instance : DecidableEq JmDictWord := fun a b =>
  decidable_of_iff
    (a.word_id = b.word_id ∧ a.readings = b.readings ∧
      a.parts_of_speech = b.parts_of_speech ∧ a.priorities = b.priorities ∧
      a.origin = b.origin)
    (by cases a; cases b; simp)

/-- Python round on nf_rank / 10.0: round half to even (the .5 cases are
exactly representable as binary doubles, so float rounding matches this). -/
def py_round_div10 (n : Nat) : Nat :=
  let q := n / 10
  let r := n % 10
  if r < 5 then q else if r > 5 then q + 1 else if q % 2 = 0 then q else q + 1

/-- Python int() on the digits after the nf tag; none models the ValueError
raised on a malformed tag. -/
def parse_nat_digits (s : List Char) : Option Nat :=
  if s ≠ [] ∧ s.all (fun c => c.isDigit) then
    some (s.foldl (fun acc c => acc * 10 + (c.toNat - 48)) 0)
  else none

/-- Tail of get_priority_score: the spec1/spec2 fallback applied only when the
primary tiers sum to zero, then the usually-kana adjustment. -/
def priority_score_tail (score : Int) (w : JmDictWord) (is_kana : Bool) : Int :=
  let score :=
    if score = 0 then
      let score := if str "spec1" ∈ w.priorities then score + 15 else score
      if str "spec2" ∈ w.priorities then score + 5 else score
    else score
  if str "uk" ∈ w.parts_of_speech then
    if is_kana then score + 10 else score - 10
  else score

/-- JmDictWord.get_priority_score; none models the exception raised by int()
on a malformed nf tag. -/
def get_priority_score (w : JmDictWord) (is_kana : Bool) : Option Int :=
  if w.priorities = [] then some 0
  else
    let score : Int := 0
    let score := if str "jiten" ∈ w.priorities then score + 100 else score
    let score := if str "ichi1" ∈ w.priorities then score + 20 else score
    let score := if str "ichi2" ∈ w.priorities then score + 10 else score
    let score := if str "news1" ∈ w.priorities then score + 15 else score
    let score := if str "news2" ∈ w.priorities then score + 10 else score
    let score :=
      if str "gai1" ∈ w.priorities ∨ str "gai2" ∈ w.priorities then score + 5 else score
    match w.priorities.find? (fun p => (str "nf").isPrefixOf p) with
    | some nf =>
      match parse_nat_digits (nf.drop 2) with
      | none => none
      | some nf_rank =>
        some (priority_score_tail
          (score + max 0 (5 - (py_round_div10 nf_rank : Int))) w is_kana)
    | none => some (priority_score_tail score w is_kana)

/-! Resolved-word cache, from src/src/jiten/parser.py (DeckWord,
_DeckWordCache, Parser._process_word).  Python object identity is made
explicit: DeckWord list fields hold references into a store of list objects,
and the cache maps keys to references into a store of DeckWord objects.  The
computation that produces a missed entry (dictionary lookups) is external to
the claims and passed in as the value it returns. -/

/-- DeckWord object (src/src/jiten/parser.py): conjugations and
parts_of_speech are references to list objects in the store. -/
structure DeckWord where
  word_id : Nat
  original_text : Str
  reading_index : Int
  occurrences : Int := 0
  conjugations : Nat
  parts_of_speech : Nat
  origin : WordOrigin := WordOrigin.UNKNOWN

instance : DecidableEq DeckWord := fun a b =>
  decidable_of_iff
    (a.word_id = b.word_id ∧ a.original_text = b.original_text ∧
      a.reading_index = b.reading_index ∧ a.occurrences = b.occurrences ∧
      a.conjugations = b.conjugations ∧ a.parts_of_speech = b.parts_of_speech ∧
      a.origin = b.origin)
    (by cases a; cases b; simp)

/-- Fallback DeckWord for store reads (never hit on valid references). -/
def deck_word_default : DeckWord :=
  { word_id := 0, original_text := [], reading_index := 0,
    conjugations := 0, parts_of_speech := 0 }

/-- Value content of a freshly computed DeckWord (list fields by value). -/
structure DeckWordVal where
  word_id : Nat
  original_text : Str
  reading_index : Int
  occurrences : Int := 0
  conjugations : List String
  parts_of_speech : List PartOfSpeech
  origin : WordOrigin := WordOrigin.UNKNOWN

instance : DecidableEq DeckWordVal := fun a b =>
  decidable_of_iff
    (a.word_id = b.word_id ∧ a.original_text = b.original_text ∧
      a.reading_index = b.reading_index ∧ a.occurrences = b.occurrences ∧
      a.conjugations = b.conjugations ∧ a.parts_of_speech = b.parts_of_speech ∧
      a.origin = b.origin)
    (by cases a; cases b; simp)

/-- DeckWordCacheKey: (surface text, guessed POS, declared dictionary form). -/
abbrev DeckWordCacheKey := Str × PartOfSpeech × Str

/-- The process-wide object state: the two stores of list objects, the store
of DeckWord objects, and _deck_word_cache_store as an association list of
references. -/
structure ParserState where
  str_lists : List (List String)
  pos_lists : List (List PartOfSpeech)
  deck_words : List DeckWord
  cache : List (DeckWordCacheKey × Nat)

instance : DecidableEq ParserState := fun a b =>
  decidable_of_iff
    (a.str_lists = b.str_lists ∧ a.pos_lists = b.pos_lists ∧
      a.deck_words = b.deck_words ∧ a.cache = b.cache)
    (by cases a; cases b; simp)

/-- The empty state (no objects, empty cache). -/
def parser_state_empty : ParserState :=
  { str_lists := [], pos_lists := [], deck_words := [], cache := [] }

/-- _DeckWordCache.get on the store. -/
def cache_get (st : ParserState) (key : DeckWordCacheKey) : Option Nat :=
  Option.map Prod.snd (st.cache.find? (fun kv => decide (kv.1 = key)))

/-- Cache skeleton of Parser._process_word (USE_CACHE true).  On a hit the
source returns DeckWord(**cached_word.__dict__): a new object whose fields,
including the two list references, are copied from the cached object.  On a
miss the computed word (if any) is allocated with fresh list objects, the same
object reference is stored in the cache and returned.  Returns the reference
of the returned object and the new state. -/
def process_word_cached (compute : Option DeckWordVal) (key : DeckWordCacheKey)
    (st : ParserState) : Option Nat × ParserState :=
  match cache_get st key with
  | some cached_ref =>
    let cached := st.deck_words.getD cached_ref deck_word_default
    (some st.deck_words.length, { st with deck_words := st.deck_words ++ [cached] })
  | none =>
    match compute with
    | none => (none, st)
    | some v =>
      let obj : DeckWord :=
        { word_id := v.word_id, original_text := v.original_text,
          reading_index := v.reading_index, occurrences := v.occurrences,
          conjugations := st.str_lists.length, parts_of_speech := st.pos_lists.length,
          origin := v.origin }
      (some st.deck_words.length,
       { str_lists := st.str_lists ++ [v.conjugations]
         pos_lists := st.pos_lists ++ [v.parts_of_speech]
         deck_words := st.deck_words ++ [obj]
         cache := st.cache ++ [(key, st.deck_words.length)] })

/-- In-place mutation of one element of the conjugation list of the DeckWord
object behind the given reference (lst[i] = val in Python). -/
def set_conj_elem (st : ParserState) (obj_ref idx : Nat) (val : String) : ParserState :=
  let obj := st.deck_words.getD obj_ref deck_word_default
  { st with
    str_lists := st.str_lists.set obj.conjugations
      ((st.str_lists.getD obj.conjugations []).set idx val) }

/-- Observed value of the conjugation list of the object behind a reference. -/
def conjugations_of (st : ParserState) (obj_ref : Nat) : List String :=
  st.str_lists.getD ((st.deck_words.getD obj_ref deck_word_default).conjugations) []

/-! Invariant of reachable deconjugation forms, and concrete demonstration
values used by the theorems below. -/

/-- Invariant satisfied by every form reachable inside one deconjugate call
on input t0: the original text is t0, the only form with an empty process log
is the initial form, and every rule-produced form has recorded t0 and its own
text in seen_text. -/
def form_invariant (t0 : Str) (f : DeconjugationForm) : Prop :=
  f.original_text = t0 ∧
  (f.process = [] → f = create_initial_form t0) ∧
  (f.process ≠ [] → t0 ∈ f.seen_text ∧ f.text ∈ f.seen_text)

/-- Demonstration rule: a standard rule rewriting ending a to ending b,
pushing tag t1 over conjugated tag t0. -/
def ruleA : DeconjugationRule :=
  { type := "stdrule", detail := "d1", dec_end := [str "b"], con_end := [str "a"],
    dec_tag := some ["t1"], con_tag := some ["t0"] }

/-- Demonstration rule with identical conjugated and dictionary endings (a
tag-only transition), as standard rule sets use for stem transitions. -/
def ruleB : DeconjugationRule :=
  { type := "stdrule", detail := "d2", dec_end := [str "b"], con_end := [str "b"],
    dec_tag := some ["t2"], con_tag := some ["t1"] }

/-- Demonstration rule set. -/
def demoRules : List DeconjugationRule := [ruleA, ruleB]

/-- The single virtual rule of ruleA, as built by the one-ending path of
_std_rule_deconjugate. -/
def demo_vrA : DeconjugationVirtualRule :=
  { dec_end := str "b", con_end := str "a", dec_tag := some "t1",
    con_tag := some "t0", detail := "d1" }

/-- The form produced from the initial form of input a by ruleA. -/
def demoF1 : DeconjugationForm :=
  { text := str "b", original_text := str "a", tags := ["t0", "t1"],
    seen_text := {str "a", str "b"}, process := ["d1"] }

/-- The form produced from demoF1 by ruleB: its text equals the text of demoF1. -/
def demoF2 : DeconjugationForm :=
  { text := str "b", original_text := str "a", tags := ["t0", "t1", "t2"],
    seen_text := {str "a", str "b"}, process := ["d1", "d2"] }

/-- Demonstration unit: the verb stem 食べ. -/
def wTabe : WordInfo :=
  { text := str "食べ", part_of_speech := PartOfSpeech.VERB,
    dictionary_form := str "食べる", normalized_form := str "食べる",
    reading := str "タベ" }

/-- Demonstration unit: て as a dependant-tagged particle. -/
def wTe : WordInfo :=
  { text := str "て", part_of_speech := PartOfSpeech.PARTICLE,
    part_of_speech_section1 := PartOfSpeechSection.DEPENDANT,
    dictionary_form := str "て", normalized_form := str "て", reading := str "テ" }

/-- Demonstration unit: いる as a dependant-tagged verb. -/
def wIru : WordInfo :=
  { text := str "いる", part_of_speech := PartOfSpeech.VERB,
    part_of_speech_section1 := PartOfSpeechSection.DEPENDANT,
    dictionary_form := str "いる", normalized_form := str "いる",
    reading := str "イル" }

/-- Demonstration unit: て as a conjunctive particle. -/
def wTeConj : WordInfo :=
  { text := str "て", part_of_speech := PartOfSpeech.PARTICLE,
    part_of_speech_section1 := PartOfSpeechSection.CONJUNCTION_PARTICLE,
    dictionary_form := str "て", normalized_form := str "て", reading := str "テ" }

/-- Demonstration unit: the person name 田中さん with a trailing honorific. -/
def wTanakaSan : WordInfo :=
  { text := str "田中さん", part_of_speech := PartOfSpeech.NOUN,
    part_of_speech_section1 := PartOfSpeechSection.PROPER_NOUN,
    part_of_speech_section2 := PartOfSpeechSection.PERSON_NAME,
    dictionary_form := str "田中さん", normalized_form := str "田中さん",
    reading := str "タナカサン" }

/-- Demonstration unit: the copula です. -/
def wDesu : WordInfo :=
  { text := str "です", part_of_speech := PartOfSpeech.AUXILIARY,
    dictionary_form := str "です", normalized_form := str "です",
    reading := str "デス" }

/-- Demonstration unit: これ. -/
def wKore : WordInfo := { text := str "これ", part_of_speech := PartOfSpeech.PRONOUN }

/-- Demonstration unit: は. -/
def wHa : WordInfo := { text := str "は", part_of_speech := PartOfSpeech.PARTICLE }

/-- Demonstration unit: ペン. -/
def wPen : WordInfo := { text := str "ペン", part_of_speech := PartOfSpeech.NOUN }

/-- Tokenization of the demonstration sentence これはペンです。. -/
def demo_pen_words : List WordInfo := [wKore, wHa, wPen, wDesu]

/-- Entry whose only priority tag is ichi1. -/
def eIchi : JmDictWord := { priorities := [str "ichi1"] }

/-- Entry whose only priority tag is news2. -/
def eNews2 : JmDictWord := { priorities := [str "news2"] }

/-- Entry tagged usually-kana with priority tag ichi1. -/
def eIchiUk : JmDictWord :=
  { priorities := [str "ichi1"], parts_of_speech := [str "uk"] }

/-- Entry tagged usually-kana with no priority tags. -/
def eUkOnly : JmDictWord := { parts_of_speech := [str "uk"] }

/-- Demonstration resolver cache key. -/
def demoKey : DeckWordCacheKey := (str "食べた", PartOfSpeech.VERB, str "食べる")

/-- Demonstration resolved-word value with a one-entry conjugation path. -/
def demoVal : DeckWordVal :=
  { word_id := 1358280, original_text := str "食べた", reading_index := 0,
    conjugations := ["past tense"], parts_of_speech := [PartOfSpeech.VERB] }

/-- State after the first resolve (a miss that stores and returns object 0). -/
def demo_st1 : ParserState :=
  (process_word_cached (some demoVal) demoKey parser_state_empty).2

/-- State after mutating element 0 of the conjugation list of the first result. -/
def demo_st2 : ParserState := set_conj_elem demo_st1 0 0 "mutated"

/-- State after the second resolve of the same key (a hit returning object 1). -/
def demo_st3 : ParserState := (process_word_cached (some demoVal) demoKey demo_st2).2

/-! Helper lemmas about the deconjugation search. -/

lemma mem_foldl_insert_option {α β : Type} [DecidableEq β] (g : α → Option β)
    (l : List α) (init : Finset β) (f' : β)
    (h : f' ∈ l.foldl (fun acc x => insert_option acc (g x)) init) :
    f' ∈ init ∨ ∃ x ∈ l, g x = some f' := by
  induction l generalizing init with
  | nil => exact Or.inl h
  | cons a l ih =>
    rw [List.foldl_cons] at h
    rcases ih _ h with hmem | ⟨x, hx, hgx⟩
    · cases hga : g a with
      | none =>
        rw [hga] at hmem
        exact Or.inl hmem
      | some r =>
        rw [hga] at hmem
        rcases Finset.mem_insert.mp (by simpa [insert_option] using hmem) with hr | hmem'
        · exact Or.inr ⟨a, List.mem_cons_self a l, by rw [hga, hr]⟩
        · exact Or.inl hmem'
    · exact Or.inr ⟨x, List.mem_cons_of_mem a hx, hgx⟩

lemma mem_foldl_union {α β : Type} [DecidableEq β] (g : α → Finset β)
    (l : List α) (init : Finset β) (f' : β)
    (h : f' ∈ l.foldl (fun acc x => acc ∪ g x) init) :
    f' ∈ init ∨ ∃ x ∈ l, f' ∈ g x := by
  induction l generalizing init with
  | nil => exact Or.inl h
  | cons a l ih =>
    rw [List.foldl_cons] at h
    rcases ih _ h with hmem | ⟨x, hx, hgx⟩
    · rcases Finset.mem_union.mp hmem with h1 | h2
      · exact Or.inl h1
      · exact Or.inr ⟨a, List.mem_cons_self a l, h2⟩
    · exact Or.inr ⟨x, List.mem_cons_of_mem a hx, hgx⟩

lemma std_inner_shape {form : DeconjugationForm} {vr : DeconjugationVirtualRule}
    {f' : DeconjugationForm} (h : std_rule_deconjugate_inner form vr = some f') :
    ∃ nt, nt ≠ form.original_text ∧
      f' = create_new_form form nt vr.con_tag vr.dec_tag vr.detail := by
  simp only [std_rule_deconjugate_inner] at h
  split at h
  · exact absurd h (by simp)
  · split at h
    · exact absurd h (by simp)
    · split at h
      · exact absurd h (by simp)
      · rename_i hne
        exact ⟨_, hne, by injection h with h4; exact h4.symm⟩

lemma mem_std_rule_deconjugate {form : DeconjugationForm} {rule : DeconjugationRule}
    {f' : DeconjugationForm} (h : f' ∈ std_rule_deconjugate form rule) :
    ∃ nt ct dt d, nt ≠ form.original_text ∧ f' = create_new_form form nt ct dt d := by
  simp only [std_rule_deconjugate] at h
  split at h
  · exact absurd h (Finset.not_mem_empty f')
  · split at h
    · split at h
      · rename_i hit heq
        rcases std_inner_shape heq with ⟨nt, hne, hshape⟩
        exact ⟨nt, _, _, _, hne, by rw [Finset.mem_singleton.mp h, hshape]⟩
      · exact absurd h (Finset.not_mem_empty f')
    · rcases mem_foldl_insert_option
          (fun vr => std_rule_deconjugate_inner form vr) _ _ _ h with h0 | ⟨vr, _, heq⟩
      · exact absurd h0 (Finset.not_mem_empty f')
      · rcases std_inner_shape heq with ⟨nt, hne, hshape⟩
        exact ⟨nt, _, _, _, hne, hshape⟩

lemma subst_inner_shape {form : DeconjugationForm} {con_end dec_end : Str}
    {detail : String} {f' : DeconjugationForm}
    (h : substitution_inner form con_end dec_end detail = some f') :
    ∃ nt, f' = create_substitution_form form nt detail := by
  simp only [substitution_inner] at h
  split at h
  · exact absurd h (by simp)
  · exact ⟨_, by injection h with h2; exact h2.symm⟩

lemma mem_substitution_deconjugate {form : DeconjugationForm}
    {rule : DeconjugationRule} {f' : DeconjugationForm}
    (h : f' ∈ substitution_deconjugate form rule) :
    ∃ nt d, f' = create_substitution_form form nt d := by
  simp only [substitution_deconjugate] at h
  split at h
  · exact absurd h (Finset.not_mem_empty f')
  · split at h
    · split at h
      · rename_i hit heq
        rcases subst_inner_shape heq with ⟨nt, hshape⟩
        exact ⟨nt, _, by rw [Finset.mem_singleton.mp h, hshape]⟩
      · exact absurd h (Finset.not_mem_empty f')
    · rcases mem_foldl_insert_option
          (fun i => substitution_inner form (idxOrFirst rule.con_end i [])
            (idxOrFirst rule.dec_end i []) rule.detail) _ _ _ h with h0 | ⟨i, _, heq⟩
      · exact absurd h0 (Finset.not_mem_empty f')
      · rcases subst_inner_shape heq with ⟨nt, hshape⟩
        exact ⟨nt, _, hshape⟩

lemma mem_apply_rule {form : DeconjugationForm} {rule : DeconjugationRule}
    {f' : DeconjugationForm} (h : f' ∈ apply_rule form rule) :
    (∃ nt ct dt d, nt ≠ form.original_text ∧ f' = create_new_form form nt ct dt d) ∨
    (∃ nt d, f' = create_substitution_form form nt d) := by
  simp only [apply_rule] at h
  split_ifs at h
  · exact Or.inl (mem_std_rule_deconjugate h)
  · simp only [rewrite_rule_deconjugate] at h
    split_ifs at h
    · exact Or.inl (mem_std_rule_deconjugate h)
    · exact absurd h (Finset.not_mem_empty f')
  · simp only [only_final_rule_deconjugate] at h
    split_ifs at h
    · exact Or.inl (mem_std_rule_deconjugate h)
    · exact absurd h (Finset.not_mem_empty f')
  · simp only [never_final_rule_deconjugate] at h
    split_ifs at h
    · exact Or.inl (mem_std_rule_deconjugate h)
    · exact absurd h (Finset.not_mem_empty f')
  · simp only [context_rule_deconjugate] at h
    split_ifs at h
    · exact absurd h (Finset.not_mem_empty f')
    · exact absurd h (Finset.not_mem_empty f')
    · exact Or.inl (mem_std_rule_deconjugate h)
  · exact Or.inr (mem_substitution_deconjugate h)
  · exact absurd h (Finset.not_mem_empty f')

lemma mem_all_rule_results {rules : List DeconjugationRule}
    {form f' : DeconjugationForm} (h : f' ∈ all_rule_results rules form) :
    ∃ rule ∈ rules, f' ∈ apply_rule form rule := by
  simp only [all_rule_results] at h
  rcases mem_foldl_union _ _ _ _ h with h0 | hx
  · exact absurd h0 (Finset.not_mem_empty f')
  · exact hx

lemma mem_round_novel {rules : List DeconjugationRule}
    {processed novel : Finset DeconjugationForm} {f' : DeconjugationForm}
    (h : f' ∈ round_novel rules processed novel) :
    ∃ f ∈ novel, ∃ rule ∈ rules, f' ∈ apply_rule f rule := by
  simp only [round_novel] at h
  have h1 := (Finset.mem_sdiff.mp h).1
  rcases Finset.mem_biUnion.mp h1 with ⟨f, hf, hres⟩
  exact ⟨f, (Finset.mem_filter.mp hf).1, mem_all_rule_results hres⟩

lemma form_invariant_initial (t0 : Str) :
    form_invariant t0 (create_initial_form t0) :=
  ⟨rfl, fun _ => rfl, fun hp => absurd rfl hp⟩

lemma form_invariant_create_new_form {t0 : Str} {form : DeconjugationForm}
    (hf : form_invariant t0 form) (nt : Str) (ct dt : Option String) (d : String) :
    form_invariant t0 (create_new_form form nt ct dt d) := by
  obtain ⟨ho, hinit, hseen⟩ := hf
  refine ⟨ho, ?_, ?_⟩
  · intro hproc
    simp [create_new_form] at hproc
  · intro _
    refine ⟨?_, ?_⟩
    · by_cases hempty : form.seen_text = ∅
      · have hp : form.process = [] := by
          by_contra hp
          have hmem := (hseen hp).2
          rw [hempty] at hmem
          exact Finset.not_mem_empty _ hmem
        have htext : form.text = t0 := by rw [hinit hp]; rfl
        simp [create_new_form, hempty, htext]
      · have hp : form.process ≠ [] := by
          intro hp
          rw [hinit hp] at hempty
          simp [create_initial_form] at hempty
        have hmem := (hseen hp).1
        simp [create_new_form, hempty]
        exact Or.inr hmem
    · simp [create_new_form]

lemma form_invariant_create_substitution_form {t0 : Str} {form : DeconjugationForm}
    (hf : form_invariant t0 form) (nt : Str) (d : String) :
    form_invariant t0 (create_substitution_form form nt d) := by
  obtain ⟨ho, hinit, hseen⟩ := hf
  refine ⟨ho, ?_, ?_⟩
  · intro hproc
    simp [create_substitution_form] at hproc
  · intro _
    refine ⟨?_, ?_⟩
    · by_cases hempty : form.seen_text = ∅
      · have hp : form.process = [] := by
          by_contra hp
          have hmem := (hseen hp).2
          rw [hempty] at hmem
          exact Finset.not_mem_empty _ hmem
        have htext : form.text = t0 := by rw [hinit hp]; rfl
        simp [create_substitution_form, hempty, htext]
      · have hp : form.process ≠ [] := by
          intro hp
          rw [hinit hp] at hempty
          simp [create_initial_form] at hempty
        have hmem := (hseen hp).1
        simp [create_substitution_form, hempty]
        exact Or.inr hmem
    · simp [create_substitution_form]

lemma form_invariant_apply_rule {t0 : Str} {form : DeconjugationForm}
    {rule : DeconjugationRule} {f' : DeconjugationForm}
    (hf : form_invariant t0 form) (h : f' ∈ apply_rule form rule) :
    form_invariant t0 f' := by
  rcases mem_apply_rule h with ⟨nt, ct, dt, d, _, rfl⟩ | ⟨nt, d, rfl⟩
  · exact form_invariant_create_new_form hf nt ct dt d
  · exact form_invariant_create_substitution_form hf nt d

lemma form_invariant_state (rules : List DeconjugationRule) (t0 : Str) :
    ∀ k f, f ∈ (deconjugate_state rules t0 k).1 ∪ (deconjugate_state rules t0 k).2 →
      form_invariant t0 f := by
  intro k
  induction k with
  | zero =>
    intro f hf
    simp only [deconjugate_state, deconjugate_init, Finset.empty_union] at hf
    by_cases ht : t0 = []
    · rw [if_pos ht] at hf
      exact absurd hf (Finset.not_mem_empty f)
    · rw [if_neg ht] at hf
      rw [Finset.mem_singleton.mp hf]
      exact form_invariant_initial t0
  | succ k ih =>
    intro f hf
    have hstep : deconjugate_state rules t0 (k + 1)
        = deconjugate_step rules (deconjugate_state rules t0 k) := rfl
    rw [hstep] at hf
    rcases Finset.mem_union.mp hf with h1 | h2
    · exact ih f h1
    · rcases mem_round_novel h2 with ⟨g, hg, rule, _, hfr⟩
      exact form_invariant_apply_rule (ih g (Finset.mem_union_right _ hg)) hfr

lemma deconjugate_state_nil (rules : List DeconjugationRule) :
    ∀ k, deconjugate_state rules [] k = (∅, ∅) := by
  intro k
  induction k with
  | zero => simp [deconjugate_state, deconjugate_init]
  | succ k ih =>
    have hstep : deconjugate_state rules [] (k + 1)
        = deconjugate_step rules (deconjugate_state rules [] k) := rfl
    rw [hstep, ih]
    simp [deconjugate_step, round_novel]

/-! Theorems settling the claims. -/

/-- C1 (counterexample): inside the deconjugate run on input a with the rule
set demoRules, the reachable frontier form demoF1 is expanded, and the firing
of ruleB on it yields a form whose text equals the pre-application
text of demoF1 itself, so the claimed no-op guard does not hold for all firings. -/
theorem c1_counterexample :
    demoF1 ∈ (deconjugate_state demoRules (str "a") 1).2 ∧
    should_skip_form demoF1 = false ∧
    apply_rule demoF1 ruleB = {demoF2} ∧
    demoF2 ∈ (deconjugate_state demoRules (str "a") 2).2 ∧
    demoF2.text = demoF1.text := by decide

/-- C1 (amended): a firing of the standard-rule core (shared by standard,
rewrite, only-final, never-final and context rules) never yields a form whose
text equals the original input text; consequently it differs from the
pre-application text whenever that text still equals the original (in
particular on the first transformation). -/
theorem c1_std_rule_firing_text_guard (form : DeconjugationForm)
    (vr : DeconjugationVirtualRule) (hit : DeconjugationForm)
    (h : std_rule_deconjugate_inner form vr = some hit) :
    hit.text ≠ form.original_text ∧
    (form.text = form.original_text → hit.text ≠ form.text) := by
  rcases std_inner_shape h with ⟨nt, hne, rfl⟩
  refine ⟨?_, ?_⟩
  · simpa [create_new_form] using hne
  · intro heq
    simpa [create_new_form, heq] using hne

/-- C1 (witness): the guard theorem applied to the firing of ruleA on the
initial form of input a. -/
theorem c1_witness :
    demoF1.text ≠ (create_initial_form (str "a")).original_text ∧
    ((create_initial_form (str "a")).text = (create_initial_form (str "a")).original_text →
      demoF1.text ≠ (create_initial_form (str "a")).text) :=
  c1_std_rule_firing_text_guard (create_initial_form (str "a")) demo_vrA demoF1
    (by decide)

/-- C5 (counterexample): for input a under demoRules the loop ends by round 3,
the returned processed set holds the untransformed initial form, and that
seen_text of that form holds neither the original text nor its own text. -/
theorem c5_counterexample :
    (deconjugate_state demoRules (str "a") 3).2 = ∅ ∧
    create_initial_form (str "a") ∈ (deconjugate_state demoRules (str "a") 3).1 ∧
    str "a" ∉ (create_initial_form (str "a")).seen_text ∧
    (create_initial_form (str "a")).text ∉ (create_initial_form (str "a")).seen_text := by
  decide

/-- C5 (amended): every form in the set returned by deconjugate that was
produced by at least one rule application (its process log is non-empty) has a
seen_text containing both the original input text and the own text of the form; the
untransformed initial form is the one member with empty seen_text. -/
theorem c5_seen_text_superset (rules : List DeconjugationRule) (t0 : Str)
    (fuel : Nat) (s : Finset DeconjugationForm) (f : DeconjugationForm)
    (hres : deconjugate_within rules t0 fuel = some s) (hf : f ∈ s)
    (hp : f.process ≠ []) : t0 ∈ f.seen_text ∧ f.text ∈ f.seen_text := by
  have hmem : f ∈ (deconjugate_state rules t0 fuel).1 := by
    simp only [deconjugate_within] at hres
    split at hres
    · rw [Option.some_inj.mp hres]
      exact hf
    · exact absurd hres (by simp)
  exact (form_invariant_state rules t0 fuel f (Finset.mem_union_left _ hmem)).2.2 hp

/-- C5 (witness): the superset theorem applied to the rule-produced form
demoF1 in the result of deconjugating a under demoRules. -/
theorem c5_witness :
    str "a" ∈ demoF1.seen_text ∧ demoF1.text ∈ demoF1.seen_text :=
  c5_seen_text_superset demoRules (str "a") 3
    ((deconjugate_state demoRules (str "a") 3).1) demoF1 (by decide) (by decide)
    (by decide)

/-- C9: deconjugate applied to the empty string returns the empty set for any
rule set (the loop exits with an empty processed set at every round, so the
model is total and no error path exists). -/
theorem c9_deconjugate_empty_input (rules : List DeconjugationRule) (fuel : Nat) :
    deconjugate_within rules [] fuel = some ∅ := by
  simp [deconjugate_within, deconjugate_state_nil]

/-- C8: the verb-dependant combination passes applied to the three morphemes
食べ (verb), て (dependant-tagged particle), いる (dependant-tagged) yield
exactly one unit whose text is 食べている and whose part of speech is verb. -/
theorem c8_teiru_combination :
    (combine_verb_dependant [wTabe, wTe, wIru]).map
      (fun w => (w.text, w.part_of_speech)) =
      [(str "食べている", PartOfSpeech.VERB)] := by decide

/-- C2: on the unit list [田中さん (person-name proper noun), です] the
honorific pass computes the split list 田中 / さん (suffix) / です as new_list
but returns the input list unchanged, so the split never reaches the caller. -/
theorem c2_honorific_split_discarded :
    separate_suffix_honorifics [wTanakaSan, wDesu] = [wTanakaSan, wDesu] ∧
    separate_suffix_honorifics_split [wTanakaSan, wDesu] =
      [{ wTanakaSan with text := str "田中", dictionary_form := str "田中" },
       { word_info_default with
           text := str "さん"
           reading := str "さん"
           dictionary_form := str "さん"
           part_of_speech := PartOfSpeech.SUFFIX }, wDesu] ∧
    separate_suffix_honorifics [wTanakaSan, wDesu] ≠
      separate_suffix_honorifics_split [wTanakaSan, wDesu] := by decide

/-- C6 (counterexample): after the conjunctive-particle pass on
[食べ (verb), て (conjunctive particle)], the first input unit object no longer
has its original field values: its text was extended in place to 食べて. -/
theorem c6_counterexample :
    (combine_conjunctive_particle_heap [wTabe, wTeConj]).2 ≠ [wTabe, wTeConj] ∧
    ((combine_conjunctive_particle_heap [wTabe, wTeConj]).2).map (fun w => w.text) =
      [str "食べて", str "て"] := by decide

/-- C6 (amended): the conjunctive-particle pass mutates its merge target in
place: on a two-unit list satisfying the merge condition, the post-state of
the input objects has the particle text appended to the first unit,
so the input units do not keep their field values. -/
theorem c6_conjunctive_particle_mutates_in_place (w1 w2 : WordInfo)
    (h : conj_particle_should_combine w1 w2) :
    (combine_conjunctive_particle_heap [w1, w2]).2 =
      [{ w1 with text := w1.text ++ w2.text }, w2] ∧
    (combine_conjunctive_particle_heap [w1, w2]).2 ≠ [w1, w2] := by
  have hpost : (combine_conjunctive_particle_heap [w1, w2]).2 =
      [{ w1 with text := w1.text ++ w2.text }, w2] := by
    simp [combine_conjunctive_particle_heap, List.range', List.getD, h]
  refine ⟨hpost, ?_⟩
  rw [hpost]
  intro heq
  have hhead : ({ w1 with text := w1.text ++ w2.text } : WordInfo) = w1 :=
    (List.cons.injEq _ _ _ _ ▸ heq).1
  have htext : w1.text ++ w2.text = w1.text := by
    have := congrArg WordInfo.text hhead
    simpa using this
  have hlen := congrArg List.length htext
  rw [List.length_append] at hlen
  have hw2 : w2.text = [] := List.length_eq_zero.mp (by omega)
  rcases h with ⟨-, hmem, -⟩
  rw [hw2] at hmem
  exact absurd hmem (by decide)

/-- C6 (witness): the mutation theorem applied to [食べ, て]. -/
theorem c6_witness :
    (combine_conjunctive_particle_heap [wTabe, wTeConj]).2 =
      [{ wTabe with text := wTabe.text ++ wTeConj.text }, wTeConj] ∧
    (combine_conjunctive_particle_heap [wTabe, wTeConj]).2 ≠ [wTabe, wTeConj] :=
  c6_conjunctive_particle_mutates_in_place wTabe wTeConj (by decide)

/-! Lemmas about the word-assignment phase of sentence segmentation: on a
single-sentence list it never merges, so the sentence text is preserved. -/

lemma assign_word_go_singleton (fuel : Nat) (s : SentenceInfo) (idx ci : Nat)
    (w : WordInfo) :
    ∃ s', (assign_word_go fuel [s] idx ci w).1 = [s'] ∧ s'.text = s.text := by
  induction fuel generalizing s idx ci with
  | zero => exact ⟨s, rfl, rfl⟩
  | succ fuel ih =>
    by_cases hidx : idx < ([s] : List SentenceInfo).length
    · have hidx0 : idx = 0 := by simpa using hidx
      subst hidx0
      cases hfind : pyFind (([s].getD 0 { text := [] }).text) w.text ci with
      | some word_idx =>
        have hval : (assign_word_go (fuel + 1) [s] 0 ci w).1 =
            [{ s with words := s.words ++ [(w, word_idx, w.text.length)] }] := by
          simp only [assign_word_go, if_pos hidx, hfind]
          simp [List.getD]
        exact ⟨_, hval, rfl⟩
      | none =>
        have hnlt : ¬ (0 + 1 < ([s] : List SentenceInfo).length) := by simp
        have hrec : assign_word_go (fuel + 1) [s] 0 ci w =
            assign_word_go fuel [s] (0 + 1) 0 w := by
          simp only [assign_word_go, if_pos hidx, hfind, if_neg hnlt]
        rw [hrec]
        exact ih s (0 + 1) 0
    · have hstop : assign_word_go (fuel + 1) [s] idx ci w = ([s], idx, ci) := by
        simp only [assign_word_go, if_neg hidx]
      rw [hstop]
      exact ⟨s, rfl, rfl⟩

lemma assign_words_singleton (ws : List WordInfo) :
    ∀ (s : SentenceInfo) (idx ci : Nat),
    ∃ s', assign_words [s] idx ci ws = [s'] ∧ s'.text = s.text := by
  induction ws with
  | nil => exact fun s idx ci => ⟨s, rfl, rfl⟩
  | cons w rest ih =>
    intro s idx ci
    by_cases hw : w.text = []
    · have hskip : assign_words [s] idx ci (w :: rest) = assign_words [s] idx ci rest := by
        simp only [assign_words, if_pos hw]
      rw [hskip]
      exact ih s idx ci
    · obtain ⟨s', hs', htext⟩ :=
        assign_word_go_singleton (([s] : List SentenceInfo).length + 1) s idx ci w
      have hsplit : assign_words [s] idx ci (w :: rest) =
          assign_words (assign_word [s] idx ci w).1 (assign_word [s] idx ci w).2.1
            (assign_word [s] idx ci w).2.2 rest := by
        rw [assign_words, if_neg hw]
      have hdef : assign_word [s] idx ci w =
          assign_word_go (([s] : List SentenceInfo).length + 1) [s] idx ci w := rfl
      rw [hsplit, hdef, hs']
      obtain ⟨s2, h2, ht2⟩ := ih s'
        (assign_word_go (([s] : List SentenceInfo).length + 1) [s] idx ci w).2.1
        (assign_word_go (([s] : List SentenceInfo).length + 1) [s] idx ci w).2.2
      exact ⟨s2, h2, by rw [ht2, htext]⟩

/-- C7 (counterexample): for the raw input これはペンです。 with its typical
tokenization, segmentation yields exactly one sentence, but its text is
これはペンです 。 (preprocessing inserts a space before the ender), which does
not contain the raw input as a contiguous substring. -/
theorem c7_counterexample :
    (split_into_sentences (preprocess_text (str "これはペンです。")) demo_pen_words).map
      (fun s => s.text) = [str "これはペンです 。"] ∧
    pyContains (str "これはペンです 。") (str "これはペンです。") = false := by decide

/-- C7 (amended): for the raw input これはペンです。 and every tokenizer unit
list, sentence segmentation yields exactly one sentence whose text is
これはペンです 。: every character of the input appears in order, including the
trailing ender, but with a space inserted before the ender by preprocessing. -/
theorem c7_single_sentence_with_space (ws : List WordInfo) :
    (split_into_sentences (preprocess_text (str "これはペンです。")) ws).map
      (fun s => s.text) = [str "これはペンです 。"] := by
  have hchars : split_sentences_chars
      (pyReplace (pyReplace (preprocess_text (str "これはペンです。")) (str "\r") [])
        (str "\n") []) = [{ text := str "これはペンです 。" }] := by decide
  simp only [split_into_sentences]
  rw [hchars]
  obtain ⟨s', hs', htext⟩ := assign_words_singleton ws { text := str "これはペンです 。" } 0 0
  rw [hs']
  simp [htext]

/-- C3 (counterexample): resolving a key stores and returns object 0; mutating
element 0 of the conjugation list of that result and resolving the same key again
returns a new object 1 whose conjugation list already reflects the mutation,
so the cached entry and subsequent results are not left unchanged. -/
theorem c3_counterexample :
    (process_word_cached (some demoVal) demoKey parser_state_empty).1 = some 0 ∧
    conjugations_of demo_st1 0 = ["past tense"] ∧
    (process_word_cached (some demoVal) demoKey demo_st2).1 = some 1 ∧
    conjugations_of demo_st3 1 = ["mutated"] ∧
    demoVal.conjugations = ["past tense"] ∧
    conjugations_of demo_st3 1 ≠ demoVal.conjugations := by decide

/-- C3 (amended): a cache hit allocates a fresh DeckWord object that is
field-for-field equal to the cached entry, so its conjugation-list and
part-of-speech-list references are the very list objects of the cached entry
(a shallow copy): the observed conjugation list of the returned object is the
that of the cached object, and in-place list mutations are visible through both. -/
theorem c3_cache_hit_shares_list_objects (compute : Option DeckWordVal)
    (key : DeckWordCacheKey) (st : ParserState) (r : Nat)
    (h : cache_get st key = some r) :
    (process_word_cached compute key st).1 = some st.deck_words.length ∧
    (process_word_cached compute key st).2.deck_words.getD st.deck_words.length
        deck_word_default = st.deck_words.getD r deck_word_default ∧
    conjugations_of (process_word_cached compute key st).2 st.deck_words.length =
      conjugations_of st r := by
  have hobj : (st.deck_words ++ [st.deck_words.getD r deck_word_default]).getD
      st.deck_words.length deck_word_default = st.deck_words.getD r deck_word_default := by
    rw [List.getD_append_right] <;> simp
  have hres : process_word_cached compute key st =
      (some st.deck_words.length,
       { st with deck_words := st.deck_words ++ [st.deck_words.getD r deck_word_default] }) := by
    simp only [process_word_cached, h]
  rw [hres]
  exact ⟨rfl, hobj, by simp only [conjugations_of, hobj]⟩

/-- C3 (witness): the sharing theorem applied to the second resolve of the
demonstration key, after the list of the first result was mutated. -/
theorem c3_witness :
    (process_word_cached (some demoVal) demoKey demo_st2).1 =
      some demo_st2.deck_words.length ∧
    (process_word_cached (some demoVal) demoKey demo_st2).2.deck_words.getD
        demo_st2.deck_words.length deck_word_default =
      demo_st2.deck_words.getD 0 deck_word_default ∧
    conjugations_of (process_word_cached (some demoVal) demoKey demo_st2).2
        demo_st2.deck_words.length = conjugations_of demo_st2 0 :=
  c3_cache_hit_shares_list_objects (some demoVal) demoKey demo_st2 0 (by decide)

/-- Usually-kana adjustment: with the uk tag the phonetic-query score exceeds
the graphemic-query score by exactly 20 for the same base score. -/
lemma priority_score_tail_uk (b : Int) (w : JmDictWord)
    (huk : str "uk" ∈ w.parts_of_speech) :
    priority_score_tail b w true = priority_score_tail b w false + 20 := by
  simp only [priority_score_tail, if_pos huk]
  norm_num
  ring

/-- C4 (counterexample): the entry with priority tag ichi1 and the uk tag
scores 10 for a graphemic query and 30 for a phonetic query: the phonetic
score is 20 points higher, not 10 as claimed. -/
theorem c4_counterexample :
    get_priority_score eIchiUk false = some 10 ∧
    get_priority_score eIchiUk true = some 30 ∧
    get_priority_score eIchiUk true ≠ some (10 + 10) := by decide

/-- C4 (amended): for a uk-tagged entry with at least one priority tag the
phonetic-query score is exactly 20 points higher than the graphemic-query
score (+10 versus -10); an entry whose only priority tag is ichi1 scores 20
and one whose only priority tag is news2 scores 10 (for entries without the
uk tag, on either query surface). -/
theorem c4_priority_score_amended :
    (∀ (w : JmDictWord) (z : Int), str "uk" ∈ w.parts_of_speech →
      w.priorities ≠ [] → get_priority_score w false = some z →
      get_priority_score w true = some (z + 20)) ∧
    (∀ w : JmDictWord, w.priorities = [str "ichi1"] →
      str "uk" ∉ w.parts_of_speech →
      get_priority_score w true = some 20 ∧ get_priority_score w false = some 20) ∧
    (∀ w : JmDictWord, w.priorities = [str "news2"] →
      str "uk" ∉ w.parts_of_speech →
      get_priority_score w true = some 10 ∧ get_priority_score w false = some 10) := by
  refine ⟨?_, ?_, ?_⟩
  · intro w z huk hpri h
    simp only [get_priority_score, if_neg hpri] at h ⊢
    cases hf : w.priorities.find? (fun p => (str "nf").isPrefixOf p) with
    | some nf =>
      simp only [hf] at h ⊢
      cases hp : parse_nat_digits (nf.drop 2) with
      | none =>
        simp only [hp] at h
        exact Option.noConfusion h
      | some nf_rank =>
        simp only [hp] at h ⊢
        rw [← Option.some_inj.mp h]
        exact congrArg some (priority_score_tail_uk _ w huk)
    | none =>
      simp only [hf] at h ⊢
      rw [← Option.some_inj.mp h]
      exact congrArg some (priority_score_tail_uk _ w huk)
  · intro w hpri huk
    have hfind : (([str "ichi1"] : List Str).find?
        (fun p => (str "nf").isPrefixOf p)) = none := by decide
    simp [str] at huk
    constructor <;>
      simp [get_priority_score, hpri, hfind, priority_score_tail, huk, str]
  · intro w hpri huk
    have hfind : (([str "news2"] : List Str).find?
        (fun p => (str "nf").isPrefixOf p)) = none := by decide
    simp [str] at huk
    constructor <;>
      simp [get_priority_score, hpri, hfind, priority_score_tail, huk, str]

/-- C4 (witness): the amended theorem applied to the uk-tagged ichi1 entry
and to the plain ichi1 and news2 entries. -/
theorem c4_witness :
    get_priority_score eIchiUk true = some (10 + 20) ∧
    get_priority_score eIchi true = some 20 ∧
    get_priority_score eNews2 false = some 10 :=
  ⟨c4_priority_score_amended.1 eIchiUk 10 (by decide) (by decide) (by decide),
   (c4_priority_score_amended.2.1 eIchi (by decide) (by decide)).1,
   (c4_priority_score_amended.2.2 eNews2 (by decide) (by decide)).2⟩

/-- C10: an entry with an empty priority-tag list scores 0 for both query
surfaces, uk-tagged or not: the kana adjustment is reached only when at least
one priority tag is present. -/
theorem c10_empty_priorities_score_zero (w : JmDictWord) (is_kana : Bool)
    (h : w.priorities = []) : get_priority_score w is_kana = some 0 := by
  simp [get_priority_score, h]

/-- C10 (witness): the theorem applied to the uk-tagged entry with no
priority tags, on both query surfaces. -/
theorem c10_witness :
    get_priority_score eUkOnly true = some 0 ∧
    get_priority_score eUkOnly false = some 0 :=
  ⟨c10_empty_priorities_score_zero eUkOnly true rfl,
   c10_empty_priorities_score_zero eUkOnly false rfl⟩

end Jiten
